import Mathlib

/-!
Shallow embedding of the rtl-pulse backend core (device-session arbiter,
spectrum engine, broadcast hub, stream readers, process supervision) and
proofs about it.  Each definition carries a pointer to the Python source
it embeds (file and lines in `src/backend/app/`).
-/

namespace RtlPulse

/-! ## Mode arbiter (routers/system.py, routers/audio.py, routers/spectrum.py)

The three start endpoints guard the shared RTL-SDR device.  Liveness flags
model `rtl_manager.is_running`, `audio_manager.is_running` and
`spectrum_manager.is_running`; we model the success path of the underlying
`start()` calls (binary present, spawn succeeds). -/

/-- Which of the three sessions currently hold the device. -/
structure Sessions where
  decode : Bool
  audio : Bool
  spectrum : Bool
deriving DecidableEq, Repr

/-- The idle state: no session active. -/
def Sessions.idle : Sessions := ⟨false, false, false⟩

/-- Outcome of a start endpoint. -/
inductive StartResult where
  /-- The session was started. -/
  | started
  /-- `start_rtl433` saw rtl_433 already running and returned `already_running`. -/
  | alreadyRunning
  /-- The endpoint raised HTTP 409. -/
  | conflict
deriving DecidableEq, Repr

/-- `start_rtl433` (routers/system.py 81-91): only checks whether rtl_433
itself is already running; no check against the audio or spectrum sessions. -/
def start_rtl433 (s : Sessions) : Sessions × StartResult :=
  if s.decode then (s, .alreadyRunning)
  else ({ s with decode := true }, .started)

/-- `start_audio` (routers/audio.py 41-90): 409 if rtl_433 is running, 409 if
audio is already running; no check against the spectrum session. -/
def start_audio (s : Sessions) : Sessions × StartResult :=
  if s.decode then (s, .conflict)
  else if s.audio then (s, .conflict)
  else ({ s with audio := true }, .started)

/-- `start_live_spectrum` (routers/spectrum.py 40-82): 409 if rtl_433 is
running, 409 if the spectrum analyzer is already running; no check against
the audio session. -/
def start_live_spectrum (s : Sessions) : Sessions × StartResult :=
  if s.decode then (s, .conflict)
  else if s.spectrum then (s, .conflict)
  else ({ s with spectrum := true }, .started)

/-- A start call naming one of the three modes. -/
inductive StartCall where
  | decode
  | audio
  | spectrum
deriving DecidableEq, Repr

/-- Dispatch a start call to the corresponding endpoint. -/
def applyStart (s : Sessions) : StartCall → Sessions × StartResult
  | .decode => start_rtl433 s
  | .audio => start_audio s
  | .spectrum => start_live_spectrum s

/-- Run a sequence of start calls, keeping the evolving session state. -/
def runStarts (s : Sessions) (cs : List StartCall) : Sessions :=
  cs.foldl (fun s c => (applyStart s c).1) s

/-- Number of non-idle sessions. -/
def Sessions.activeCount (s : Sessions) : Nat :=
  (if s.decode then 1 else 0) + (if s.audio then 1 else 0) +
    (if s.spectrum then 1 else 0)

/-! ## Broadcast hub subscriber inbox (routers/spectrum.py 129-140)

`send_to_client` pushes onto a per-client `asyncio.Queue(maxsize=10)`:
if the queue is full it first removes the oldest item with `get_nowait`,
then enqueues the new item with `put_nowait`.  The queue is modelled
front-oldest as a list. -/

/-- `send_to_client` (routers/spectrum.py 129-140). `queue.full()` is
`10 ≤ length`; `get_nowait` removes the head (oldest); `put_nowait` appends. -/
def send_to_client {α : Type} (q : List α) (d : α) : List α :=
  if 10 ≤ q.length then q.tail ++ [d] else q ++ [d]

/-! ## Spectrum configuration (spectrum_manager.py 15-22, 60-79) -/

/-- `SpectrumConfig` dataclass (spectrum_manager.py 15-22) with its defaults. -/
structure SpectrumConfig where
  center_freq : Int := 433920000
  sample_rate : Int := 2048000
  fft_size : Int := 1024
  gain : Int := 40
  averaging : Int := 4
deriving DecidableEq, Repr

/-- Effect of `SpectrumManager.configure` (spectrum_manager.py 60-79) on the
config record.  `2 ** int(np.log2(fft_size))` is modelled exactly as
`2 ^ Nat.log2 n` (for the positive sizes the endpoint admits, `np.log2` is
exact enough that `int` truncation agrees with the mathematical floor);
`max(1, averaging)` keeps averaging at least 1.  Each `None` argument leaves
its field untouched. -/
def SpectrumConfig.update (cfg : SpectrumConfig)
    (center_freq sample_rate fft_size gain averaging : Option Int) :
    SpectrumConfig :=
  let cfg := match center_freq with
    | some v => { cfg with center_freq := v }
    | none => cfg
  let cfg := match sample_rate with
    | some v => { cfg with sample_rate := v }
    | none => cfg
  let cfg := match fft_size with
    | some v => { cfg with fft_size := (2 ^ Nat.log2 v.toNat : Int) }
    | none => cfg
  let cfg := match gain with
    | some v => { cfg with gain := v }
    | none => cfg
  match averaging with
  | some v => { cfg with averaging := max 1 v }
  | none => cfg

/-- Whole-manager state of `SpectrumManager` (spectrum_manager.py 28-33):
the config plus the fields `configure` never touches.  Clients are opaque
callback identifiers; process and task are modelled by presence flags. -/
structure SpectrumManagerState where
  config : SpectrumConfig
  running : Bool
  clients : List Nat
  hasProcess : Bool
  hasTask : Bool
deriving DecidableEq, Repr

/-- `SpectrumManager.configure` (spectrum_manager.py 60-79): mutates only
`self.config`. -/
def SpectrumManagerState.configure (st : SpectrumManagerState)
    (center_freq sample_rate fft_size gain averaging : Option Int) :
    SpectrumManagerState :=
  { st with config :=
      st.config.update center_freq sample_rate fft_size gain averaging }

/-! ## Spectrum engine loop (spectrum_manager.py 144-223)

`_process_samples` fixes `samples_needed = config.fft_size * 2` once, before
the loop, and then repeatedly reads that many bytes, computes a windowed FFT
power vector, accumulates `config.averaging` of them (read live each cycle)
and emits an averaged, downsampled frame.  The numeric kernel — bytes to
centred floats, Hann window, FFT, `20·log10(|X| + 1e-10)` (lines 166-180) —
is over-the-reals and is abstracted as a parameter `kernel`; the only
structural fact used about it is that it returns one power bin per complex
sample, i.e. per two input bytes.  Rationals stand in for floats. -/

/-- Python `x[::step]`: every step-th element starting at index 0. -/
def everyNth {α : Type} (step : Nat) (l : List α) : List α :=
  (l.enum.filter (fun p => p.1 % step == 0)).map Prod.snd

/-- `np.fft.fftfreq n d`: `[0, 1, ..., (n-1)/2, -(n/2), ..., -1] / (n*d)`. -/
def fftfreq (n : Nat) (d : ℚ) : List ℚ :=
  if n = 0 then []
  else
    ((List.range ((n - 1) / 2 + 1)).map fun k => (k : ℚ) / (n * d)) ++
      ((List.range (n / 2)).map fun k => ((k : ℚ) - (n / 2 : Nat)) / (n * d))

/-- `np.fft.fftshift`: roll by `length / 2`, i.e. swap the two halves. -/
def fftshift {α : Type} (l : List α) : List α :=
  l.drop ((l.length + 1) / 2) ++ l.take ((l.length + 1) / 2)

/-- `np.min` of a power vector (numpy rejects the empty input; the engine
only forms non-empty vectors, and we return 0 there to stay total). -/
def npMin : List ℚ → ℚ
  | [] => 0
  | a :: rest => rest.foldl min a

/-- `np.max`, as `npMin`. -/
def npMax : List ℚ → ℚ
  | [] => 0
  | a :: rest => rest.foldl max a

/-- `np.mean` of one vector. -/
def npMean (l : List ℚ) : ℚ := l.sum / l.length

/-- `np.mean(acc, axis=0)`: elementwise mean of the accumulated power
vectors (numpy requires them to share a length; the engine always
accumulates vectors of the same length). -/
def colMean (acc : List (List ℚ)) : List ℚ :=
  match acc with
  | [] => []
  | v :: _ =>
      (List.range v.length).map
        (fun i => (acc.map (fun w => w.getD i 0)).sum / acc.length)

/-- One emitted spectrum frame (spectrum_manager.py 202-211). -/
structure Frame where
  center_freq_mhz : ℚ
  sample_rate_mhz : ℚ
  frequencies : List ℚ
  power : List ℚ
  min_power : ℚ
  max_power : ℚ
  avg_power : ℚ
deriving DecidableEq, Repr

/-- Frame construction (spectrum_manager.py 190-211): the frequency axis is
`fftshift (fftfreq config.fft_size (1/config.sample_rate))` offset by the
centre frequency, in MHz; both vectors are downsampled by
`step = max 1 (len(freq_mhz) / 256)`; min/max/mean are over the full
averaged power vector.  All of `fft_size`, `sample_rate`, `center_freq`
are read from the config at emission time. -/
def mkFrame (cfg : SpectrumConfig) (avg : List ℚ) : Frame :=
  let freq_axis := fftshift (fftfreq cfg.fft_size.toNat (1 / cfg.sample_rate))
  let freq_mhz := freq_axis.map (fun f => ((cfg.center_freq : ℚ) + f) / 1000000)
  let step := max 1 (freq_mhz.length / 256)
  { center_freq_mhz := (cfg.center_freq : ℚ) / 1000000
    sample_rate_mhz := (cfg.sample_rate : ℚ) / 1000000
    frequencies := everyNth step freq_mhz
    power := everyNth step avg
    min_power := npMin avg
    max_power := npMax avg
    avg_power := npMean avg }

/-- State of one `_process_samples` run.  `samplesNeeded` is the local
`samples_needed`, computed once before the loop from the fft size at start;
`stopped` records that an empty read broke the loop. -/
structure EngineState where
  cfg : SpectrumConfig
  samplesNeeded : Nat
  acc : List (List ℚ)
  frames : List Frame
  stopped : Bool
deriving DecidableEq, Repr

/-- Loop entry (spectrum_manager.py 149-152): empty accumulator and
`samples_needed = config.fft_size * 2`. -/
def initEngine (cfg : SpectrumConfig) : EngineState :=
  { cfg := cfg, samplesNeeded := cfg.fft_size.toNat * 2, acc := [], frames := [],
    stopped := false }

/-- One read cycle (spectrum_manager.py 155-216): an empty read breaks the
loop; a read shorter than `samples_needed` is discarded (`continue`); a full
read is turned into a power vector by the kernel and appended to the
accumulator, and when the accumulator reaches the **live** `config.averaging`
its elementwise mean becomes a frame and the accumulator is reset. -/
def engineRead (kernel : List Nat → List ℚ) (st : EngineState)
    (data : List Nat) : EngineState :=
  if st.stopped then st
  else if data.isEmpty then { st with stopped := true }
  else if data.length < st.samplesNeeded then st
  else
    let acc1 := st.acc ++ [kernel data]
    if st.cfg.averaging ≤ (acc1.length : Int) then
      { st with acc := [], frames := st.frames ++ [mkFrame st.cfg (colMean acc1)] }
    else { st with acc := acc1 }

/-- Environment events seen by a running engine: a read completing, or a
concurrent `configure` call (last-write-wins on the shared config). -/
inductive EngineEv where
  | read (data : List Nat)
  | conf (center_freq sample_rate fft_size gain averaging : Option Int)
deriving Repr

/-- Interleaved semantics of the loop with concurrent configuration. -/
def engineStep (kernel : List Nat → List ℚ) (st : EngineState) :
    EngineEv → EngineState
  | .read d => engineRead kernel st d
  | .conf cf sr fs g a => { st with cfg := st.cfg.update cf sr fs g a }

/-- Run the engine over a sequence of events. -/
def engineRun (kernel : List Nat → List ℚ) (st : EngineState)
    (evs : List EngineEv) : EngineState :=
  evs.foldl (engineStep kernel) st

/-- `rtl_sdr` spawn arguments (spectrum_manager.py 90-96): the process's
effective frequency, sample rate and gain are read from the config once, at
start. -/
def spectrumStartCommand (cfg : SpectrumConfig) : List String :=
  ["rtl_sdr", "-f", toString cfg.center_freq, "-s", toString cfg.sample_rate,
    "-g", toString cfg.gain, "-"]

/-! ## Frequency parsing (routers/spectrum.py 18-31)

`parse_frequency` strips and uppercases the input, then checks the suffixes
`K`, `M`, `G` in turn; since they are distinct single characters, the
`endswith` loop over the multiplier dict is dispatch on the last character.
Exact rational arithmetic stands in for Python float arithmetic. -/

/-- Value of a digit string (most significant first). -/
def digitsToNat (l : List Char) : Nat :=
  l.foldl (fun acc c => 10 * acc + (c.toNat - 48)) 0

/-- Python `str.strip()` with no argument: remove leading and trailing
whitespace. -/
def pyStrip (l : List Char) : List Char :=
  ((l.dropWhile Char.isWhitespace).reverse.dropWhile Char.isWhitespace).reverse

/-- Python `str.upper()`. -/
def pyUpper (l : List Char) : List Char := l.map Char.toUpper

/-- Python `float(s)` on an unsigned body: digits with at most one dot and
at least one digit.  (The builtin also accepts exponent / infinity / nan
forms, which frequency strings never use; those are not modelled.) -/
def pyFloatUnsigned (body : List Char) : Option ℚ :=
  if body.contains '.' then
    let ip := body.takeWhile (fun c => c != '.')
    let fp := (body.dropWhile (fun c => c != '.')).drop 1
    if (ip.all Char.isDigit && fp.all Char.isDigit) && !(ip.isEmpty && fp.isEmpty) then
      some ((digitsToNat ip : ℚ) + (digitsToNat fp : ℚ) / 10 ^ fp.length)
    else none
  else if body.all Char.isDigit && !body.isEmpty then
    some ((digitsToNat body : ℚ))
  else none

/-- Python `float(s)`: optional sign then an unsigned decimal body; a value
Python would reject (ValueError) is `none`. -/
def pyFloat (l : List Char) : Option ℚ :=
  match l with
  | '+' :: rest => pyFloatUnsigned rest
  | '-' :: rest => (pyFloatUnsigned rest).map Neg.neg
  | rest => pyFloatUnsigned rest

/-- Python `int()` on a float value: truncation toward zero. -/
def pyInt (q : ℚ) : Int := Int.tdiv q.num q.den

/-- `parse_frequency` (routers/spectrum.py 18-31). -/
def parse_frequency (s : List Char) : Option Int :=
  let t := pyUpper (pyStrip s)
  match t.getLast? with
  | some 'K' => (pyFloat t.dropLast).map (fun q => pyInt (q * 1000))
  | some 'M' => (pyFloat t.dropLast).map (fun q => pyInt (q * 1000000))
  | some 'G' => (pyFloat t.dropLast).map (fun q => pyInt (q * 1000000000))
  | _ => (pyFloat t).map pyInt

/-! ## Audio manager (audio_manager.py, routers/audio.py) -/

/-- Modulation enum (audio_manager.py 15-22).  `NFM` in the Python enum is
an alias of `FM` (both have the value "fm"), so it is not a distinct
constructor. -/
inductive Modulation where
  | fm
  | am
  | wbfm
  | usb
  | lsb
  | raw
deriving DecidableEq, Repr

/-- The `.value` string of each modulation. -/
def Modulation.value : Modulation → String
  | .fm => "fm"
  | .am => "am"
  | .wbfm => "wbfm"
  | .usb => "usb"
  | .lsb => "lsb"
  | .raw => "raw"

/-- Python `Modulation(s)`: look up by value; unknown values raise
ValueError, modelled as `none`. -/
def Modulation.fromValue (s : String) : Option Modulation :=
  if s = "fm" then some .fm
  else if s = "am" then some .am
  else if s = "wbfm" then some .wbfm
  else if s = "usb" then some .usb
  else if s = "lsb" then some .lsb
  else if s = "raw" then some .raw
  else none

/-- `AudioConfig` dataclass (audio_manager.py 25-33) with its defaults.
The frequency is kept as the raw string it is in the source. -/
structure AudioConfig where
  frequency : String := "101.5M"
  modulation : Modulation := .wbfm
  sample_rate : Int := 200000
  output_rate : Int := 48000
  gain : Int := 40
  squelch : Int := 0
  ppm : Int := 0
deriving DecidableEq, Repr

/-- `AudioManager._build_command` (audio_manager.py 56-76); the resolved
`rtl_fm` binary path is modelled by its basename.  Note `-f` receives
`config.frequency` verbatim — the raw string, not a parsed Hz value. -/
def build_command (cfg : AudioConfig) : List String :=
  ["rtl_fm", "-f", cfg.frequency, "-M", cfg.modulation.value,
    "-s", toString cfg.sample_rate, "-r", toString cfg.output_rate,
    "-g", toString cfg.gain]
  ++ (if 0 < cfg.squelch then ["-l", toString cfg.squelch] else [])
  ++ (if cfg.ppm ≠ 0 then ["-p", toString cfg.ppm] else [])
  ++ ["-"]

/-! ## Process supervision stop sequences

Each manager's `stop()` is modelled by the sequence of process-control
actions it performs, driven by oracles for which resources exist and
whether the process exits within the graceful timeout. -/

/-- A process-control action taken during stop/start. -/
inductive ProcAct where
  /-- Graceful termination signal (`process.terminate()`). -/
  | terminate
  /-- Bounded wait for exit (`wait_for(process.wait(), timeout)`); the
  timeouts in play (2.0 and 5.0 s) are whole seconds. -/
  | waitFor (seconds : Nat)
  /-- Forceful kill (`process.kill()`). -/
  | kill
  /-- Unbounded wait for exit (`process.wait()` with no timeout). -/
  | waitForExit
  /-- Cancel the background reader task. -/
  | cancelTask
  /-- Spawn a process with the given command line. -/
  | spawn (cmd : List String)
deriving DecidableEq, Repr

/-- `RTL433Manager.stop` (rtl_manager.py 90-113): cancel the reader task,
terminate, wait up to 5 s, and on timeout kill then wait unconditionally.
The method always returns normally (success). -/
def rtl433_stop (hasTask hasProcess exitsInTime : Bool) :
    List ProcAct × Bool :=
  ((if hasTask then [ProcAct.cancelTask] else []) ++
    (if hasProcess then
      [ProcAct.terminate, ProcAct.waitFor 5] ++
        (if exitsInTime then [] else [ProcAct.kill, ProcAct.waitForExit])
     else []), true)

/-- `SpectrumManager.stop` (spectrum_manager.py 119-142): early no-op when
not running; cancel the task, terminate, wait up to 2 s, and on timeout
kill — without waiting for the killed process to exit.  Always returns
normally. -/
def spectrum_stop (running hasTask hasProcess exitsInTime : Bool) :
    List ProcAct × Bool :=
  if !running then ([], true)
  else
    ((if hasTask then [ProcAct.cancelTask] else []) ++
      (if hasProcess then
        [ProcAct.terminate, ProcAct.waitFor 2] ++
          (if exitsInTime then [] else [ProcAct.kill])
       else []), true)

/-- `AudioManager.stop` (audio_manager.py 111-123): terminate, wait up to
2 s, on timeout kill then wait unconditionally; always returns True. -/
def audio_stop (hasProcess exitsInTime : Bool) : List ProcAct × Bool :=
  ((if hasProcess then
      [ProcAct.terminate, ProcAct.waitFor 2] ++
        (if exitsInTime then [] else [ProcAct.kill, ProcAct.waitForExit])
    else []), true)

/-- The audio manager's state: whether rtl_fm is alive and the config of
the current session. -/
structure AudioManagerState where
  running : Bool
  config : Option AudioConfig
deriving DecidableEq, Repr

/-- Outcome of a call to `AudioManager.start`. -/
inductive AudioStartOutcome where
  /-- The call never returns: the nested lock acquisition blocks forever. -/
  | deadlock
  /-- The call returned: the new manager state and the actions performed. -/
  | ok (st : AudioManagerState) (trace : List ProcAct)
deriving DecidableEq, Repr

/-- `AudioManager.start` (audio_manager.py 78-109).  The body runs under
`async with self._lock` (line 80), a non-reentrant `asyncio.Lock`.  When a
process is already running it awaits `self.stop()` (line 82), and `stop`
re-acquires the same lock (line 113) from the same task, so the call
blocks forever: deadlock.  When nothing is running, rtl_fm is spawned
with the built command and the config installed (success path: the spawn
succeeds and the process survives the settle check). -/
def audio_start (st : AudioManagerState) (cfg : AudioConfig) :
    AudioStartOutcome :=
  if st.running then .deadlock
  else .ok { running := true, config := some cfg }
    [ProcAct.spawn (build_command cfg)]

/-- `tune_frequency` endpoint (routers/audio.py 152-188): 400 when not
running, 500 when no config (both `none`); otherwise builds a new config
replacing the frequency — and, when a non-empty modulation string is
supplied, the modulation — carrying every other field over, then awaits
`audio_manager.start` on it.  Python's `if modulation` is falsy for both
None and the empty string, so `""` keeps the current modulation; an
unknown modulation string raises ValueError (`none`). -/
def tune_frequency (st : AudioManagerState) (frequency : String)
    (modulation : Option String) : Option AudioStartOutcome :=
  if !st.running then none
  else
    match st.config with
    | none => none
    | some cur =>
      let m? : Option Modulation :=
        match modulation with
        | some s => if s = "" then some cur.modulation else Modulation.fromValue s
        | none => some cur.modulation
      match m? with
      | none => none
      | some m =>
          some (audio_start st
            { frequency := frequency, modulation := m,
              sample_rate := cur.sample_rate, output_rate := cur.output_rate,
              gain := cur.gain, squelch := cur.squelch, ppm := cur.ppm })

/-! ## Line decoder (rtl_manager.py 121-166)

The reader loop decodes each line, skips empty lines, parses JSON
(`json.loads` is the parameter `loads`; a JSON decode error is `none`),
normalizes the `time` field and dispatches the event to every registered
callback in registration order.  The wall clock is abstracted as the
parameter `now` and ISO-8601 parsing as `parseIso`. -/

/-- A JSON scalar value, as found in rtl_433 output objects. -/
inductive JVal where
  | s (v : String)
  | n (v : Int)
  | b (v : Bool)
  | null
deriving DecidableEq, Repr

/-- Result of `json.loads` on one line: an object's key/value pairs (with
duplicate keys already collapsed, as `json.loads` does), or `other` for
valid JSON that is not an object — such a value fails the subsequent
`time` handling with TypeError/AttributeError, which the outer per-line
handler swallows. -/
inductive PyJson where
  | obj (fields : List (String × JVal))
  | other
deriving DecidableEq, Repr

/-- The dispatched payload: the parsed object plus its normalized
timestamp (`data["time"]` after normalization, a datetime modelled as an
integer timestamp). -/
structure DecodedEvent where
  fields : List (String × JVal)
  time : Int
deriving DecidableEq, Repr

/-- Time normalization (rtl_manager.py 142-150): a string `time` field is
parsed with `fromisoformat` after replacing "Z" with "+00:00", falling
back to the current time when parsing fails (ValueError/TypeError); a
missing `time` field gets the current time; a non-string `time` field
makes `.replace` raise AttributeError, which escapes to the outer per-line
handler — `none`, the line dispatches nothing. -/
def timeResult (fields : List (String × JVal))
    (parseIso : String → Option Int) (now : Int) : Option Int :=
  match fields.lookup "time" with
  | some (JVal.s t) => some ((parseIso (t.replace "Z" "+00:00")).getD now)
  | some _ => none
  | none => some now

/-- Processing of one line (rtl_manager.py 129-166): returns the dispatch
list — one entry per registered callback, in registration order.  A
callback that raises is logged and skipped (rtl_manager.py 159-160), so
the dispatch list records every attempted delivery either way. -/
def processLine (loads : List Char → Option PyJson)
    (parseIso : String → Option Int) (now : Int) (callbacks : List Nat)
    (line : List Char) : List (Nat × DecodedEvent) :=
  let stripped := pyStrip line
  if stripped = [] then []
  else
    match loads stripped with
    | none => []
    | some PyJson.other => []
    | some (PyJson.obj fields) =>
      match timeResult fields parseIso now with
      | none => []
      | some t => callbacks.map (fun cb => (cb, ⟨fields, t⟩))

/-- The reader loop over a stream of lines; dispatches concatenate in
stream order, and no line — malformed or not — terminates the loop. -/
def readLoop (loads : List Char → Option PyJson)
    (parseIso : String → Option Int) (now : Int) (callbacks : List Nat)
    (lines : List (List Char)) : List (Nat × DecodedEvent) :=
  lines.foldl (fun acc l => acc ++ processLine loads parseIso now callbacks l) []

/-! ## Theorems: C1, C3, C4, C10 -/

/-- C1 (counterexample): starting audio from idle and then starting the
spectrum session succeeds — the spectrum endpoint never checks the audio
session — leaving two sessions simultaneously non-Idle.  This refutes the
claim that at most one session is non-Idle under every sequence of start
calls and that a start while a different session is active returns
Conflict. -/
theorem exclusivity_counterexample :
    (applyStart (applyStart Sessions.idle .audio).1 .spectrum).2 =
      StartResult.started ∧
    runStarts Sessions.idle [.audio, .spectrum] = ⟨false, true, true⟩ ∧
    (runStarts Sessions.idle [.audio, .spectrum]).activeCount = 2 := by
  decide

/-- C1 (amended): exclusivity is enforced only against the decode (rtl_433)
session and against a session's own mode.  While decode is active, audio and
spectrum starts return Conflict leaving the state unchanged, and a decode
start reports already-running; an audio (resp. spectrum) start while audio
(resp. spectrum) is active returns Conflict unchanged.  Audio and spectrum
do not check each other, so they can be active simultaneously. -/
theorem exclusivity_decode_only (s : Sessions) :
    (s.decode = true →
      start_audio s = (s, .conflict) ∧
      start_live_spectrum s = (s, .conflict) ∧
      start_rtl433 s = (s, .alreadyRunning)) ∧
    (s.audio = true → start_audio s = (s, .conflict) ∨ s.decode = true) ∧
    (s.spectrum = true →
      start_live_spectrum s = (s, .conflict) ∨ s.decode = true) := by
  obtain ⟨d, a, sp⟩ := s
  cases d <;> cases a <;> cases sp <;> decide

/-- Witness for `exclusivity_decode_only` at the state where only the decode
session is active. -/
theorem exclusivity_decode_only_witness :
    start_audio ⟨true, false, false⟩ = (⟨true, false, false⟩, .conflict) :=
  ((exclusivity_decode_only ⟨true, false, false⟩).1 rfl).1

/-- C4: the subscriber inbox has capacity 10; an enqueue never blocks and
yields a queue of at most 10 items whose newest element is the enqueued one;
on a full inbox the oldest item (the head) is removed and the new item
appended, and on a non-full inbox the item is simply appended. -/
theorem send_to_client_drop_oldest {α : Type} (q : List α) (d : α)
    (hq : q.length ≤ 10) :
    (send_to_client q d).length ≤ 10 ∧
    (send_to_client q d).getLast? = some d ∧
    (q.length = 10 → send_to_client q d = q.tail ++ [d]) ∧
    (q.length < 10 → send_to_client q d = q ++ [d]) := by
  rcases Nat.lt_or_ge q.length 10 with h | h
  · have e : send_to_client q d = q ++ [d] := by
      simp [send_to_client, Nat.not_le.mpr h]
    refine ⟨?_, ?_, fun heq => absurd heq (by omega), fun _ => e⟩
    · rw [e]
      simp only [List.length_append, List.length_cons, List.length_nil]
      omega
    · rw [e]
      simp [List.getLast?_concat]
  · have hlen : q.length = 10 := le_antisymm hq h
    have e : send_to_client q d = q.tail ++ [d] := by
      simp [send_to_client, h]
    refine ⟨?_, ?_, fun _ => e, fun hlt => absurd hlen (by omega)⟩
    · rw [e]
      simp only [List.length_append, List.length_tail, List.length_cons,
        List.length_nil]
      omega
    · rw [e]
      simp [List.getLast?_concat]

/-- Witness for `send_to_client_drop_oldest` on a full inbox of 10 items. -/
theorem send_to_client_drop_oldest_witness :
    (send_to_client (List.range 10) 99).length ≤ 10 ∧
    (send_to_client (List.range 10) 99).getLast? = some 99 ∧
    ((List.range 10).length = 10 →
      send_to_client (List.range 10) 99 = (List.range 10).tail ++ [99]) ∧
    ((List.range 10).length < 10 →
      send_to_client (List.range 10) 99 = List.range 10 ++ [99]) :=
  send_to_client_drop_oldest (List.range 10) 99 (by decide)

/-- C3: configuring fft_size with any request n ≥ 1 stores
`2 ^ Nat.log2 n`, which is a power of two and is the value `2 ^ ⌊log₂ n⌋`
characterized by `m ≤ n < 2·m`; in particular a request of 1000 stores 512. -/
theorem configure_fft_size_rounds_down (cfg : SpectrumConfig) (n : Int)
    (hn : 1 ≤ n) :
    (cfg.update none none (some n) none none).fft_size =
      (2 ^ Nat.log2 n.toNat : Int) ∧
    (∃ k : Nat, (cfg.update none none (some n) none none).fft_size = 2 ^ k) ∧
    (cfg.update none none (some n) none none).fft_size ≤ n ∧
    n < 2 * (cfg.update none none (some n) none none).fft_size ∧
    (({} : SpectrumConfig).update none none (some 1000) none none).fft_size
      = 512 := by
  have h1 : (cfg.update none none (some n) none none).fft_size =
      (2 ^ Nat.log2 n.toNat : Int) := rfl
  have hpos : (0 : Int) ≤ n := by omega
  have hnz : n.toNat ≠ 0 := by omega
  refine ⟨h1, ⟨_, h1⟩, ?_, ?_, ?_⟩
  · rw [h1, Nat.log2_eq_log_two]
    have hle := Nat.pow_log_le_self 2 hnz
    have h2 : ((2 : Int) ^ Nat.log 2 n.toNat) ≤ (n.toNat : Int) := by
      exact_mod_cast hle
    rwa [Int.toNat_of_nonneg hpos] at h2
  · rw [h1, Nat.log2_eq_log_two]
    have hlt := Nat.lt_pow_succ_log_self (b := 2) (by norm_num) n.toNat
    have h3 : (n.toNat : Int) < 2 * 2 ^ Nat.log 2 n.toNat := by
      calc (n.toNat : Int) < ((2 ^ (Nat.log 2 n.toNat + 1) : Nat) : Int) := by
            exact_mod_cast hlt
        _ = 2 * 2 ^ Nat.log 2 n.toNat := by push_cast [pow_succ]; ring
    rwa [Int.toNat_of_nonneg hpos] at h3
  · show (2 ^ Nat.log2 (1000 : Int).toNat : Int) = 512
    have h9 : Nat.log2 1000 = 9 := by
      rw [Nat.log2_eq_log_two]
      exact Nat.log_eq_of_pow_le_of_lt_pow (by norm_num) (by norm_num)
    have ht : (1000 : Int).toNat = 1000 := rfl
    rw [ht, h9]
    norm_num

/-- Witness for `configure_fft_size_rounds_down` at the request 1000. -/
theorem configure_fft_size_rounds_down_witness :
    (({} : SpectrumConfig).update none none (some 1000) none none).fft_size
      ≤ 1000 :=
  (configure_fft_size_rounds_down {} 1000 (by norm_num)).2.2.1

/-- C10: `SpectrumManager.configure` leaves every config field whose
argument is None at its prior value, changes nothing outside the config
(running flag, client list, process, task), and preserves averaging ≥ 1. -/
theorem configure_frame (st : SpectrumManagerState)
    (cf sr fs g a : Option Int) :
    (cf = none → (st.configure cf sr fs g a).config.center_freq =
      st.config.center_freq) ∧
    (sr = none → (st.configure cf sr fs g a).config.sample_rate =
      st.config.sample_rate) ∧
    (fs = none → (st.configure cf sr fs g a).config.fft_size =
      st.config.fft_size) ∧
    (g = none → (st.configure cf sr fs g a).config.gain = st.config.gain) ∧
    (a = none → (st.configure cf sr fs g a).config.averaging =
      st.config.averaging) ∧
    (st.configure cf sr fs g a).running = st.running ∧
    (st.configure cf sr fs g a).clients = st.clients ∧
    (st.configure cf sr fs g a).hasProcess = st.hasProcess ∧
    (st.configure cf sr fs g a).hasTask = st.hasTask ∧
    (1 ≤ st.config.averaging →
      1 ≤ (st.configure cf sr fs g a).config.averaging) := by
  cases cf <;> cases sr <;> cases fs <;> cases g <;> cases a <;>
    simp [SpectrumManagerState.configure, SpectrumConfig.update]

/-- Witness for `configure_frame` with every argument None. -/
theorem configure_frame_witness :
    ((⟨{}, false, [], false, false⟩ : SpectrumManagerState).configure
      none none none none none).config.center_freq = 433920000 :=
  (configure_frame ⟨{}, false, [], false, false⟩ none none none none none).1
    rfl

/-- Running the engine over reads only: with averaging 4 the frame count
advances by one per four full reads and the accumulator length tracks the
read count modulo 4. -/
theorem run_reads_mod (kernel : List Nat → List ℚ) :
    ∀ (ds : List (List Nat)) (st : EngineState),
      st.stopped = false → st.cfg.averaging = 4 → st.acc.length < 4 →
      (∀ d ∈ ds, d.length = st.samplesNeeded) → 0 < st.samplesNeeded →
      (engineRun kernel st (ds.map EngineEv.read)).frames.length
          = st.frames.length + (st.acc.length + ds.length) / 4 ∧
      (engineRun kernel st (ds.map EngineEv.read)).acc.length
          = (st.acc.length + ds.length) % 4 := by
  intro ds
  induction ds with
  | nil =>
      intro st _ _ h3 _ _
      constructor <;> simp [engineRun] <;> omega
  | cons d rest ih =>
      intro st h1 h2 h3 h4 h5
      have hd : d.length = st.samplesNeeded := h4 d (by simp)
      have hne : ¬ d.isEmpty = true := by
        cases d with
        | nil => simp at hd; omega
        | cons a l => simp
      have hnlt : ¬ d.length < st.samplesNeeded := by omega
      have hrun : engineRun kernel st ((d :: rest).map EngineEv.read) =
          engineRun kernel (engineRead kernel st d) (rest.map EngineEv.read) :=
        rfl
      rw [hrun]
      by_cases hem : st.cfg.averaging ≤ ((st.acc ++ [kernel d]).length : Int)
      all_goals
        simp only [List.length_append, List.length_cons, List.length_nil,
          Nat.zero_add, List.length_singleton] at hem
        push_cast at hem
      · have hacc3 : st.acc.length = 3 := by
          rw [h2] at hem
          omega
        have hstep : engineRead kernel st d =
            { st with acc := [], frames := st.frames ++ [mkFrame st.cfg (colMean (st.acc ++ [kernel d]))] } := by
          simp [engineRead, h1, hne, hnlt, hem]
        rw [hstep]
        have := ih { st with acc := [], frames := st.frames ++ [mkFrame st.cfg (colMean (st.acc ++ [kernel d]))] }
          h1 h2 (by simp) (by simpa using fun e he => h4 e (by simp [he])) h5
        simp only [List.length_append, List.length_cons, List.length_nil,
          List.length] at this ⊢
        constructor
        · rw [this.1]
          simp
          omega
        · rw [this.2]
          simp
          omega
      · have haccLt : st.acc.length + 1 < 4 := by
          rw [h2] at hem
          omega
        have hstep : engineRead kernel st d = { st with acc := st.acc ++ [kernel d] } := by
          simp [engineRead, h1, hne, hnlt, hem]
        rw [hstep]
        have := ih { st with acc := st.acc ++ [kernel d] }
          h1 h2 (by simpa using haccLt)
          (by simpa using fun e he => h4 e (by simp [he])) h5
        constructor
        · rw [this.1]
          simp
          omega
        · rw [this.2]
          simp
          omega

/-- C2: with averaging 4 and a continuous supply of full-size reads (each
exactly `fft_size * 2` bytes), the engine emits exactly one frame per four
reads (the accumulator length is the read count mod 4), and whenever a read
emits a frame the accumulation buffer is empty immediately afterwards. -/
theorem spectrum_averaging_emits_per_four (kernel : List Nat → List ℚ)
    (cfg : SpectrumConfig) (ds : List (List Nat))
    (havg : cfg.averaging = 4)
    (hpos : 0 < cfg.fft_size.toNat)
    (hds : ∀ d ∈ ds, d.length = cfg.fft_size.toNat * 2) :
    (engineRun kernel (initEngine cfg) (ds.map EngineEv.read)).frames.length
        = ds.length / 4 ∧
    (engineRun kernel (initEngine cfg) (ds.map EngineEv.read)).acc.length
        = ds.length % 4 ∧
    (∀ (st : EngineState) (d : List Nat),
      (engineRead kernel st d).frames.length ≠ st.frames.length →
      (engineRead kernel st d).acc = []) := by
  have base := run_reads_mod kernel ds (initEngine cfg) rfl
    (by simpa [initEngine] using havg) (by simp [initEngine])
    (by simpa [initEngine] using hds) (by simp [initEngine]; omega)
  refine ⟨?_, ?_, ?_⟩
  · have := base.1
    simpa [initEngine] using this
  · have := base.2
    simpa [initEngine] using this
  · intro st d hch
    by_cases h1 : st.stopped = true
    · simp [engineRead, h1] at hch
    · by_cases h2 : d.isEmpty = true
      · simp [engineRead, h1, h2] at hch
      · by_cases h3 : d.length < st.samplesNeeded
        · simp [engineRead, h1, h2, h3] at hch
        · by_cases h4 : st.cfg.averaging ≤ ((st.acc ++ [kernel d]).length : Int)
          all_goals
            simp only [List.length_append, List.length_cons, List.length_nil,
              Nat.zero_add, List.length_singleton] at h4
            push_cast at h4
          · simp [engineRead, h1, h2, h3, h4]
          · simp [engineRead, h1, h2, h3, h4] at hch

/-- Witness for `spectrum_averaging_emits_per_four`: eight full reads on the
default config emit exactly two frames. -/
theorem spectrum_averaging_emits_per_four_witness :
    (engineRun (fun d => List.replicate (d.length / 2) 0) (initEngine {})
        ((List.replicate 8 (List.replicate 2048 (0 : Nat))).map
          EngineEv.read)).frames.length
      = (List.replicate 8 (List.replicate 2048 (0 : Nat))).length / 4 :=
  (spectrum_averaging_emits_per_four (fun d => List.replicate (d.length / 2) 0)
    {} (List.replicate 8 (List.replicate 2048 (0 : Nat))) rfl (by decide)
    (fun d hd => by rw [List.eq_of_mem_replicate hd, List.length_replicate]; decide)).1

/-- C5 (amended): a concurrent configure call never changes the loop's
`samples_needed`, accumulator or emitted frames; a full-size read emits
exactly when the **live** `config.averaging` is reached (so an averaging
change takes effect on the next cycle) and otherwise appends one power
vector produced from the fixed-size read; a non-empty read shorter than the
start-time `samples_needed` is discarded outright; and the process's
effective frequency, sample rate and gain enter only the spawn command built
at start. -/
theorem live_readable_config (kernel : List Nat → List ℚ) :
    (∀ (st : EngineState) (cf sr fs g a : Option Int),
      (engineStep kernel st (.conf cf sr fs g a)).samplesNeeded = st.samplesNeeded ∧
      (engineStep kernel st (.conf cf sr fs g a)).acc = st.acc ∧
      (engineStep kernel st (.conf cf sr fs g a)).frames = st.frames ∧
      (engineStep kernel st (.conf cf sr fs g a)).stopped = st.stopped) ∧
    (∀ (st : EngineState) (d : List Nat),
      st.stopped = false → d.length = st.samplesNeeded → 0 < st.samplesNeeded →
      ((engineRead kernel st d).frames.length = st.frames.length + 1 ↔
        st.cfg.averaging ≤ (st.acc.length : Int) + 1) ∧
      (¬ st.cfg.averaging ≤ (st.acc.length : Int) + 1 →
        (engineRead kernel st d).acc = st.acc ++ [kernel d])) ∧
    (∀ (st : EngineState) (d : List Nat),
      st.stopped = false → d ≠ [] → d.length < st.samplesNeeded →
      engineRead kernel st d = st) ∧
    (∀ cfg : SpectrumConfig, spectrumStartCommand cfg =
      ["rtl_sdr", "-f", toString cfg.center_freq, "-s",
        toString cfg.sample_rate, "-g", toString cfg.gain, "-"]) := by
  refine ⟨fun st cf sr fs g a => ⟨rfl, rfl, rfl, rfl⟩, ?_, ?_, fun cfg => rfl⟩
  · intro st d h1 h2 h3
    have hne : ¬ d.isEmpty = true := by
      cases d with
      | nil => simp at h2; omega
      | cons a l => simp
    have hnlt : ¬ d.length < st.samplesNeeded := by omega
    by_cases hem : st.cfg.averaging ≤ (st.acc.length : Int) + 1
    · have hstep : engineRead kernel st d =
          { st with acc := [], frames := st.frames ++ [mkFrame st.cfg (colMean (st.acc ++ [kernel d]))] } := by
        have hem2 : st.cfg.averaging ≤ ((st.acc ++ [kernel d]).length : Int) := by
          simp only [List.length_append, List.length_cons, List.length_nil]
          push_cast
          exact hem
        simp [engineRead, h1, hne, hnlt, hem2, hem]
      refine ⟨⟨fun _ => hem, fun _ => ?_⟩, fun hn => absurd hem hn⟩
      rw [hstep]
      simp
    · have hstep : engineRead kernel st d = { st with acc := st.acc ++ [kernel d] } := by
        have hem2 : ¬ st.cfg.averaging ≤ ((st.acc ++ [kernel d]).length : Int) := by
          simp only [List.length_append, List.length_cons, List.length_nil]
          push_cast
          exact hem
        have hem3 : (st.acc.length : Int) + 1 < st.cfg.averaging := by omega
        simp [engineRead, h1, hne, hnlt, hem2, hem, hem3]
      refine ⟨⟨fun hlen => ?_, fun hem2 => absurd hem2 hem⟩, fun _ => by rw [hstep]⟩
      rw [hstep] at hlen
      simp at hlen
  · intro st d h1 h2 h3
    have hne : ¬ d.isEmpty = true := by simpa using h2
    simp [engineRead, h1, hne, h3]

set_option maxRecDepth 40000 in
/-- Witness for `live_readable_config`: on a fresh engine started with FFT
size 512 (so `samples_needed = 1024`), a 512-byte read is discarded. -/
theorem live_readable_config_witness :
    engineRead (fun d => List.replicate (d.length / 2) 0)
      (initEngine { fft_size := 512, averaging := 1 })
      (List.replicate 512 0) =
      initEngine { fft_size := 512, averaging := 1 } :=
  (live_readable_config (fun d => List.replicate (d.length / 2) 0)).2.2.1
    (initEngine { fft_size := 512, averaging := 1 }) (List.replicate 512 0)
    rfl (by simp) (by simp [initEngine])

set_option maxRecDepth 100000 in
/-- C5 (counterexample to the claim as stated): start the engine with FFT
size 512 (`samples_needed = 1024`) and averaging 1, then configure FFT size
256 while running.  The new size does not take effect on the next cycle: a
512-byte read (full for the new size) is discarded, and a 1024-byte read
still produces a 512-bin power vector — while the frequency axis is built
from the new 256 — so the emitted frame has 256 frequencies but 512 power
points. -/
theorem live_readable_config_counterexample :
    engineStep (fun d => List.replicate (d.length / 2) 0)
        (initEngine { fft_size := 512, averaging := 1 })
        (.conf none none (some 256) none none) =
      { cfg := { fft_size := 256, averaging := 1 }, samplesNeeded := 1024,
        acc := [], frames := [], stopped := false } ∧
    engineRead (fun d => List.replicate (d.length / 2) 0)
        { cfg := { fft_size := 256, averaging := 1 }, samplesNeeded := 1024,
          acc := [], frames := [], stopped := false }
        (List.replicate 512 0) =
      { cfg := { fft_size := 256, averaging := 1 }, samplesNeeded := 1024,
        acc := [], frames := [], stopped := false } ∧
    ((engineRead (fun d => List.replicate (d.length / 2) 0)
        { cfg := { fft_size := 256, averaging := 1 }, samplesNeeded := 1024,
          acc := [], frames := [], stopped := false }
        (List.replicate 1024 0)).frames.map
      (fun f => (f.frequencies.length, f.power.length))) = [(256, 512)] := by
  have hlog : Nat.log2 256 = 8 := by
    rw [Nat.log2_eq_log_two]
    exact Nat.log_eq_of_pow_le_of_lt_pow (by norm_num) (by norm_num)
  refine ⟨?_, ?_, ?_⟩
  · simp only [engineStep, initEngine, SpectrumConfig.update]
    simp [hlog]
  · decide
  · decide

/-! ### Frequency parsing: helper lemmas -/

/-- A character whose code is none of 32/9/13/10 is not whitespace. -/
theorem isWhitespace_eq_false_of_toNat (c : Char) (h32 : c.toNat ≠ 32)
    (h9 : c.toNat ≠ 9) (h13 : c.toNat ≠ 13) (h10 : c.toNat ≠ 10) :
    c.isWhitespace = false := by
  simp only [Char.isWhitespace, Bool.or_eq_false_iff, decide_eq_false_iff_not]
  refine ⟨⟨⟨?_, ?_⟩, ?_⟩, ?_⟩ <;> rintro rfl <;>
    first
    | exact h32 rfl
    | exact h9 rfl
    | exact h13 rfl
    | exact h10 rfl

/-- Code bounds of a digit character. -/
theorem isDigit_toNat {c : Char} (h : c.isDigit = true) :
    48 ≤ c.toNat ∧ c.toNat ≤ 57 := by
  simp [Char.isDigit] at h
  exact ⟨UInt32.le_toNat_of_le (by norm_num [UInt32.size]) h.1,
    UInt32.toNat_le_of_le (by norm_num [UInt32.size]) h.2⟩

/-- Digits are not whitespace. -/
theorem isDigit_not_whitespace {c : Char} (h : c.isDigit = true) :
    c.isWhitespace = false := by
  obtain ⟨h1, h2⟩ := isDigit_toNat h
  exact isWhitespace_eq_false_of_toNat c (by omega) (by omega) (by omega)
    (by omega)

/-- `toUpper` fixes every character below the lowercase range. -/
theorem toUpper_eq_self (c : Char) (h : c.toNat < 97) : c.toUpper = c := by
  unfold Char.toUpper
  rw [if_neg (by omega)]

/-- `dropWhile` is the identity when no element satisfies the predicate. -/
theorem dropWhile_eq_self_of {α : Type} (p : α → Bool) (m : List α)
    (hm : ∀ c ∈ m, p c = false) : m.dropWhile p = m := by
  cases m with
  | nil => rfl
  | cons a t =>
      rw [List.dropWhile_cons]
      simp [hm a (by simp)]

/-- `pyStrip` is the identity on whitespace-free strings. -/
theorem pyStrip_eq_self (l : List Char)
    (h : ∀ c ∈ l, c.isWhitespace = false) : pyStrip l = l := by
  unfold pyStrip
  rw [dropWhile_eq_self_of _ l h,
    dropWhile_eq_self_of _ l.reverse
      (fun c hc => h c (List.mem_reverse.mp hc)),
    List.reverse_reverse]

/-- `pyUpper` is the identity below the lowercase range. -/
theorem pyUpper_eq_self (l : List Char) (h : ∀ c ∈ l, c.toNat < 97) :
    pyUpper l = l := by
  unfold pyUpper
  induction l with
  | nil => rfl
  | cons a t ih =>
      rw [List.map_cons, toUpper_eq_self a (h a (by simp)),
        ih (fun c hc => h c (by simp [hc]))]

/-- `takeWhile` stops exactly at a sentinel that fails the predicate. -/
theorem takeWhile_append_of {α : Type} (p : α → Bool) (l r : List α) (a : α)
    (hl : ∀ c ∈ l, p c = true) (ha : p a = false) :
    (l ++ a :: r).takeWhile p = l := by
  induction l with
  | nil => simp [List.takeWhile_cons, ha]
  | cons b t ih =>
      simp only [List.cons_append, List.takeWhile_cons, hl b (by simp),
        if_true]
      rw [ih (fun c hc => hl c (by simp [hc]))]

/-- `dropWhile` stops exactly at a sentinel that fails the predicate. -/
theorem dropWhile_append_of {α : Type} (p : α → Bool) (l r : List α) (a : α)
    (hl : ∀ c ∈ l, p c = true) (ha : p a = false) :
    (l ++ a :: r).dropWhile p = a :: r := by
  induction l with
  | nil => simp [List.dropWhile_cons, ha]
  | cons b t ih =>
      simp only [List.cons_append, List.dropWhile_cons, hl b (by simp),
        if_true]
      exact ih (fun c hc => hl c (by simp [hc]))

/-- `pyFloat` on a decimal `ip.fp` with non-empty digit integer part and
digit fractional part evaluates to the exact decimal value. -/
theorem pyFloat_decimal (ip fp : List Char)
    (hip : ip.all Char.isDigit = true) (hfp : fp.all Char.isDigit = true)
    (hne : ip ≠ []) :
    pyFloat (ip ++ '.' :: fp) =
      some ((digitsToNat ip : ℚ) + (digitsToNat fp : ℚ) / 10 ^ fp.length) := by
  obtain ⟨c, cs, rfl⟩ : ∃ c cs, ip = c :: cs := by
    cases ip with
    | nil => exact absurd rfl hne
    | cons c cs => exact ⟨c, cs, rfl⟩
  simp only [List.all_cons, Bool.and_eq_true] at hip
  have hdot : ∀ x ∈ c :: cs, (x != '.') = true := by
    intro x hx
    have hd : x.isDigit = true := by
      rcases hx with _ | hx
      · exact hip.1
      · exact List.all_eq_true.mp hip.2 x (by assumption)
    obtain ⟨hb1, hb2⟩ := isDigit_toNat hd
    simp only [bne_iff_ne, ne_eq]
    rintro rfl
    exact absurd hb1 (by decide)
  have hndot : (('.' : Char) != '.') = false := by decide
  have hc1 : c ≠ '+' := by
    rintro rfl
    exact absurd hip.1 (by decide)
  have hc2 : c ≠ '-' := by
    rintro rfl
    exact absurd hip.1 (by decide)
  unfold pyFloat
  rw [List.cons_append]
  split
  · simp_all
  · simp_all
  · rename_i heq
    unfold pyFloatUnsigned
    rw [if_pos (by simp)]
    rw [show c :: (cs ++ '.' :: fp) = (c :: cs) ++ '.' :: fp from rfl]
    rw [takeWhile_append_of _ (c :: cs) fp '.' hdot hndot,
      dropWhile_append_of _ (c :: cs) fp '.' hdot hndot]
    simp only [List.drop_one, List.tail_cons]
    rw [if_pos]
    simp only [List.all_cons, Bool.and_eq_true]
    refine ⟨⟨⟨hip.1, hip.2⟩, hfp⟩, by simp⟩

/-- The three suffix characters and the dot are neither whitespace nor
lowercase, so strip and upper fix a decimal-with-suffix string. -/
theorem freq_chars_tame (ip fp : List Char)
    (hip : ip.all Char.isDigit = true) (hfp : fp.all Char.isDigit = true)
    (c : Char) (hc : c.toNat < 97 ∧ c.isWhitespace = false) :
    pyStrip ((ip ++ '.' :: fp) ++ [c]) = (ip ++ '.' :: fp) ++ [c] ∧
    pyUpper ((ip ++ '.' :: fp) ++ [c]) = (ip ++ '.' :: fp) ++ [c] := by
  have hmem : ∀ x ∈ (ip ++ '.' :: fp) ++ [c],
      x.toNat < 97 ∧ x.isWhitespace = false := by
    intro x hx
    simp only [List.mem_append, List.mem_cons, List.mem_singleton] at hx
    rcases hx with (hx | rfl | hx) | rfl | hx0
    · have hd := List.all_eq_true.mp hip x hx
      obtain ⟨h1, h2⟩ := isDigit_toNat hd
      exact ⟨by omega, isDigit_not_whitespace hd⟩
    · exact ⟨by decide, by decide⟩
    · have hd := List.all_eq_true.mp hfp x hx
      obtain ⟨h1, h2⟩ := isDigit_toNat hd
      exact ⟨by omega, isDigit_not_whitespace hd⟩
    · exact hc
    · exact absurd hx0 (by simp)
  exact ⟨pyStrip_eq_self _ (fun x hx => (hmem x hx).2),
    pyUpper_eq_self _ (fun x hx => (hmem x hx).1)⟩

/-- C8 (amended): every stop sends the graceful termination signal first,
waits up to the mode-dependent bounded timeout (5 s decode, 2 s audio and
spectrum), and escalates to kill when the process has not exited; the
decode and audio supervisors then wait unconditionally for the killed
process, while the spectrum supervisor kills without waiting; in every
case — timeout or not — stop reports success. -/
theorem stop_graceful_then_kill (hasTask hasProcess exitsInTime : Bool) :
    (rtl433_stop hasTask hasProcess exitsInTime).2 = true ∧
    (spectrum_stop true hasTask hasProcess exitsInTime).2 = true ∧
    (audio_stop hasProcess exitsInTime).2 = true ∧
    (hasProcess = true → exitsInTime = false →
      (rtl433_stop hasTask hasProcess exitsInTime).1 =
        (if hasTask then [ProcAct.cancelTask] else []) ++
          [ProcAct.terminate, ProcAct.waitFor 5, ProcAct.kill,
            ProcAct.waitForExit] ∧
      (audio_stop hasProcess exitsInTime).1 =
        [ProcAct.terminate, ProcAct.waitFor 2, ProcAct.kill,
          ProcAct.waitForExit] ∧
      (spectrum_stop true hasTask hasProcess exitsInTime).1 =
        (if hasTask then [ProcAct.cancelTask] else []) ++
          [ProcAct.terminate, ProcAct.waitFor 2, ProcAct.kill]) ∧
    (hasProcess = true → exitsInTime = true →
      (rtl433_stop hasTask hasProcess exitsInTime).1 =
        (if hasTask then [ProcAct.cancelTask] else []) ++
          [ProcAct.terminate, ProcAct.waitFor 5] ∧
      (audio_stop hasProcess exitsInTime).1 =
        [ProcAct.terminate, ProcAct.waitFor 2] ∧
      (spectrum_stop true hasTask hasProcess exitsInTime).1 =
        (if hasTask then [ProcAct.cancelTask] else []) ++
          [ProcAct.terminate, ProcAct.waitFor 2]) := by
  cases hasTask <;> cases hasProcess <;> cases exitsInTime <;> decide

/-- Witness for `stop_graceful_then_kill`: the decode stop on a hung
process cancels the task, terminates, waits 5 s, kills, then waits. -/
theorem stop_graceful_then_kill_witness :
    (rtl433_stop true true false).1 =
      (if true then [ProcAct.cancelTask] else []) ++
        [ProcAct.terminate, ProcAct.waitFor 5, ProcAct.kill,
          ProcAct.waitForExit] :=
  ((stop_graceful_then_kill true true false).2.2.2.1 rfl rfl).1

/-- C8 (counterexample to the claim as stated): on graceful-timeout the
spectrum supervisor kills the process but never waits for it to exit —
`stop()` still reports success. -/
theorem stop_no_wait_after_kill_counterexample :
    spectrum_stop true true true false =
      ([ProcAct.cancelTask, ProcAct.terminate, ProcAct.waitFor 2,
        ProcAct.kill], true) ∧
    ProcAct.waitForExit ∉ (spectrum_stop true true true false).1 := by
  refine ⟨by decide, by decide⟩

/-- C9: the claimed stop-then-start never happens.  Tuning while an
AudioStreaming session is active always reaches `AudioManager.start` with
a running process, where the method — holding the non-reentrant
`asyncio.Lock` — awaits `self.stop()`, which blocks forever re-acquiring
the same lock: the call deadlocks, performing no stop, no spawn and no
config change.  This holds whether the modulation argument is absent,
empty (falsy, keeps the current modulation) or a valid modulation
string. -/
theorem tune_while_active_deadlocks (st : AudioManagerState)
    (cur : AudioConfig) (f : String) (ms : Option String)
    (hrun : st.running = true) (hcfg : st.config = some cur)
    (hm : ms = none ∨ ms = some "" ∨
      ∃ s m, ms = some s ∧ Modulation.fromValue s = some m) :
    tune_frequency st f ms = some AudioStartOutcome.deadlock := by
  rcases hm with rfl | rfl | ⟨s, m, rfl, hsm⟩
  · simp [tune_frequency, audio_start, hrun, hcfg]
  · simp [tune_frequency, audio_start, hrun, hcfg]
  · have hs : s ≠ "" := by
      rintro rfl
      simp [Modulation.fromValue] at hsm
    simp [tune_frequency, audio_start, hrun, hcfg, hs, hsm]

/-- Witness for `tune_while_active_deadlocks`: tuning a default active
session to "105.3M" deadlocks. -/
theorem tune_while_active_deadlocks_witness :
    tune_frequency ⟨true, some {}⟩ "105.3M" none =
      some AudioStartOutcome.deadlock :=
  tune_while_active_deadlocks ⟨true, some {}⟩ {} "105.3M" none rfl rfl
    (Or.inl rfl)

/-- C7: a decoder line that is not valid JSON produces no dispatch and does
not end the loop; a following valid JSON object line is still delivered to
every registered callback in registration order. -/
theorem decoder_tolerates_bad_line (loads : List Char → Option PyJson)
    (parseIso : String → Option Int) (now : Int) (cbs : List Nat)
    (bad good : List Char) (fs : List (String × JVal)) (t : Int)
    (hbad : loads (pyStrip bad) = none)
    (hgood : loads (pyStrip good) = some (PyJson.obj fs))
    (hgne : pyStrip good ≠ [])
    (ht : timeResult fs parseIso now = some t) :
    processLine loads parseIso now cbs bad = [] ∧
    readLoop loads parseIso now cbs [bad, good] =
      cbs.map (fun cb => (cb, ⟨fs, t⟩)) ∧
    readLoop loads parseIso now cbs [bad, good] =
      readLoop loads parseIso now cbs [good] := by
  have hb : processLine loads parseIso now cbs bad = [] := by
    unfold processLine
    by_cases he : pyStrip bad = []
    · simp [he]
    · simp [he, hbad]
  have hg : processLine loads parseIso now cbs good =
      cbs.map (fun cb => (cb, ⟨fs, t⟩)) := by
    unfold processLine
    simp [hgne, hgood, ht]
  refine ⟨hb, ?_, ?_⟩ <;> simp [readLoop, hb, hg]

/-- Witness for `decoder_tolerates_bad_line`: the line "not json" between a
loader that accepts only one object line and two callbacks. -/
theorem decoder_tolerates_bad_line_witness :
    readLoop
      (fun s => if s = "\x7b\x22model\x22: \x22test\x22\x7d".toList then
        some (PyJson.obj [("model", JVal.s "test")]) else none)
      (fun _ => none) 0 [0, 1] ["not json".toList,
        "\x7b\x22model\x22: \x22test\x22\x7d".toList] =
      [0, 1].map (fun cb => (cb, ⟨[("model", JVal.s "test")], 0⟩)) :=
  (decoder_tolerates_bad_line
    (fun s => if s = "\x7b\x22model\x22: \x22test\x22\x7d".toList then
      some (PyJson.obj [("model", JVal.s "test")]) else none)
    (fun _ => none) 0 [0, 1] "not json".toList
    "\x7b\x22model\x22: \x22test\x22\x7d".toList
    [("model", JVal.s "test")] 0 (by decide) (by decide) (by decide)
    (by decide)).2.1

/-- Strip and upper also fix a suffixless decimal string. -/
theorem freq_chars_tame0 (ip fp : List Char)
    (hip : ip.all Char.isDigit = true) (hfp : fp.all Char.isDigit = true) :
    pyStrip (ip ++ '.' :: fp) = ip ++ '.' :: fp ∧
    pyUpper (ip ++ '.' :: fp) = ip ++ '.' :: fp := by
  have hmem : ∀ x ∈ ip ++ '.' :: fp, x.toNat < 97 ∧ x.isWhitespace = false := by
    intro x hx
    simp only [List.mem_append, List.mem_cons] at hx
    rcases hx with hx | rfl | hx
    · have hd := List.all_eq_true.mp hip x hx
      obtain ⟨h1, h2⟩ := isDigit_toNat hd
      exact ⟨by omega, isDigit_not_whitespace hd⟩
    · exact ⟨by decide, by decide⟩
    · have hd := List.all_eq_true.mp hfp x hx
      obtain ⟨h1, h2⟩ := isDigit_toNat hd
      exact ⟨by omega, isDigit_not_whitespace hd⟩
  exact ⟨pyStrip_eq_self _ (fun x hx => (hmem x hx).2),
    pyUpper_eq_self _ (fun x hx => (hmem x hx).1)⟩

/-- C6 (amended, parse part): for a decimal string `ip.fp` (digits, `ip`
non-empty) with value `q`, `parse_frequency` yields `int(q * 1000)`,
`int(q * 10^6)` and `int(q * 10^9)` under the suffixes K, M, G, and
`int(q)` with no suffix — an integer number of Hz in every case.  Exact
rational arithmetic models Python's float multiplication. -/
theorem parse_frequency_suffixes (ip fp : List Char)
    (hip : ip.all Char.isDigit = true) (hfp : fp.all Char.isDigit = true)
    (hne : ip ≠ []) :
    parse_frequency ((ip ++ '.' :: fp) ++ ['K']) =
      some (pyInt (((digitsToNat ip : ℚ) +
        (digitsToNat fp : ℚ) / 10 ^ fp.length) * 1000)) ∧
    parse_frequency ((ip ++ '.' :: fp) ++ ['M']) =
      some (pyInt (((digitsToNat ip : ℚ) +
        (digitsToNat fp : ℚ) / 10 ^ fp.length) * 1000000)) ∧
    parse_frequency ((ip ++ '.' :: fp) ++ ['G']) =
      some (pyInt (((digitsToNat ip : ℚ) +
        (digitsToNat fp : ℚ) / 10 ^ fp.length) * 1000000000)) ∧
    parse_frequency (ip ++ '.' :: fp) =
      some (pyInt ((digitsToNat ip : ℚ) +
        (digitsToNat fp : ℚ) / 10 ^ fp.length)) := by
  refine ⟨?_, ?_, ?_, ?_⟩
  · obtain ⟨hstrip, hupper⟩ :=
      freq_chars_tame ip fp hip hfp 'K' ⟨by decide, by decide⟩
    simp only [parse_frequency]
    rw [hstrip, hupper, List.getLast?_concat, List.dropLast_concat,
      pyFloat_decimal ip fp hip hfp hne]
    rfl
  · obtain ⟨hstrip, hupper⟩ :=
      freq_chars_tame ip fp hip hfp 'M' ⟨by decide, by decide⟩
    simp only [parse_frequency]
    rw [hstrip, hupper, List.getLast?_concat, List.dropLast_concat,
      pyFloat_decimal ip fp hip hfp hne]
    rfl
  · obtain ⟨hstrip, hupper⟩ :=
      freq_chars_tame ip fp hip hfp 'G' ⟨by decide, by decide⟩
    simp only [parse_frequency]
    rw [hstrip, hupper, List.getLast?_concat, List.dropLast_concat,
      pyFloat_decimal ip fp hip hfp hne]
    rfl
  · obtain ⟨hstrip, hupper⟩ := freq_chars_tame0 ip fp hip hfp
    have hlast : ∃ c, (ip ++ '.' :: fp).getLast? = some c ∧
        (c.isDigit = true ∨ c = '.') := by
      rw [List.getLast?_append_of_ne_nil ip (by simp)]
      rcases List.eq_nil_or_concat fp with rfl | ⟨as, a, rfl⟩
      · exact ⟨'.', rfl, Or.inr rfl⟩
      · rw [List.concat_eq_append,
          show ('.' :: (as ++ [a])) = ('.' :: as) ++ [a] from rfl,
          List.getLast?_concat]
        refine ⟨a, rfl, Or.inl ?_⟩
        exact List.all_eq_true.mp hfp a (by simp)
    obtain ⟨c, hgl, hcd⟩ := hlast
    have hKMG : c ≠ 'K' ∧ c ≠ 'M' ∧ c ≠ 'G' := by
      rcases hcd with hd | rfl
      · obtain ⟨h1, h2⟩ := isDigit_toNat hd
        refine ⟨?_, ?_, ?_⟩ <;> rintro rfl <;> exact absurd h2 (by decide)
      · exact ⟨by decide, by decide, by decide⟩
    simp only [parse_frequency]
    rw [hstrip, hupper, hgl]
    split
    · simp_all
    · simp_all
    · simp_all
    · rw [pyFloat_decimal ip fp hip hfp hne]
      rfl

/-- Witness for `parse_frequency_suffixes` at "101.5M": parses to
101500000 Hz. -/
theorem parse_frequency_suffixes_witness :
    parse_frequency ((['1', '0', '1'] ++ '.' :: ['5']) ++ ['M']) =
      some 101500000 := by
  have h := (parse_frequency_suffixes ['1', '0', '1'] ['5'] (by decide)
    (by decide) (by decide)).2.1
  have e1 : digitsToNat ['1', '0', '1'] = 101 := by decide
  have e2 : digitsToNat ['5'] = 5 := by decide
  rw [h, e1, e2]
  have e3 : (((101 : Nat) : ℚ) + ((5 : Nat) : ℚ) /
      10 ^ (['5'] : List Char).length) * 1000000 = ((101500000 : Nat) : ℚ) := by
    push_cast
    norm_num
  rw [e3]
  have e4 : pyInt ((101500000 : Nat) : ℚ) = 101500000 := by
    unfold pyInt
    rw [Rat.num_natCast, Rat.den_natCast]
    rfl
  rw [e4]

/-- C6 (counterexample to the claim as stated): the audio path never parses
the frequency — `_build_command` places the raw suffixed string "101.5M"
on rtl_fm's command line, and no integer-Hz rendering of it appears there. -/
theorem frequency_raw_on_audio_command :
    build_command {} = ["rtl_fm", "-f", "101.5M", "-M", "wbfm", "-s",
      "200000", "-r", "48000", "-g", "40", "-"] ∧
    "101500000" ∉ build_command {} := by
  refine ⟨by decide, by decide⟩

end RtlPulse
